import Mathlib

/-!
Verification of the core messaging subsystem specification of this
repository (a publish/subscribe broker): subject matching, per-account
subscription interest, route interest propagation with coalescing
(RS+/RS-), auto-unsubscribe, queue-group delivery across routes,
cluster-name negotiation, and lame-duck mode.

The repository ships the behavioural test suite for the core
(test/client_cluster_test.go and the server test file); the production
routines the tests exercise live outside the shipped sources, so every
definition below is modelled from the specification text (its section is
cited at each definition) and checked against the concrete scenarios the
tests pin down.
-/

namespace NatsSpec

/-- Modelled from the spec (§3): a subject is a non-empty dot-separated
token sequence; we represent it as the list of its tokens. -/
abbrev Token := String

abbrev Subject := List Token

/-- Modelled from the spec (§4.1, matching algorithm): does a
subscription pattern (which may use the single-token wildcard `*` and the
terminal multi-token wildcard `>`) accept a concrete subject?  `>`
matches one or more remaining tokens, `*` exactly one. -/
def matchPat : List Token → List Token → Bool
  | [], [] => true
  | [], _ :: _ => false
  | _ :: _, [] => false
  | p :: ps, u :: us =>
      if p == ">" then true
      else if p == "*" then matchPat ps us
      else p == u && matchPat ps us

/-- Modelled from the spec (§3, Subscription): id (`sid`) unique within
the owning connection (`cid`), a pattern, an optional queue group name,
an optional auto-unsubscribe cap and the count of messages delivered so
far. -/
structure Sub where
  cid : Nat
  sid : Nat
  pattern : List Token
  queue : Option String
  maxD : Option Nat
  delivered : Nat
deriving DecidableEq, Repr

/-- Modelled from the spec (§3, Account / §4.5): route interest is keyed
by the `(subject, queue)` pair of a subscription (the account is fixed:
the model is account-scoped, as subjects never cross accounts). -/
abbrev Interest := List Token × Option String

def interestOf (s : Sub) : Interest := (s.pattern, s.queue)

/-- Modelled from the spec (§4.2): the route-interest refcount of a
`(subject, queue)` pair is the number of local subscriptions carrying
that pair. -/
def interestCount (subs : List Sub) (i : Interest) : Nat :=
  subs.countP (fun s => decide (interestOf s = i))

/-- Modelled from the spec (§4.4, route verbs): the interest-propagation
frames a server emits on a route.  `rsPlus` advertises new coalesced
interest (with the queue weight), `rsMinus` withdraws it, and `wUpd` is
the spec's "implementation-equivalent delta message" keeping a queue
weight accurate without re-advertising interest. -/
inductive Frame where
  | rsPlus (subject : List Token) (queue : Option String) (weight : Nat)
  | rsMinus (subject : List Token) (queue : Option String)
  | wUpd (subject : List Token) (queue : Option String) (weight : Nat)
deriving DecidableEq, Repr

/-- Modelled from the spec (§4.1): `match(subject)` enumerates all
subscriptions whose pattern accepts the subject.  The matcher is
specified by this result; we embed it as the subscription set with
`match` as a filter. -/
def matchSubs (subs : List Sub) (subj : Subject) : List Sub :=
  subs.filter (fun s => matchPat s.pattern subj)

/-- Modelled from the spec (§4.5): pick exactly one element of a
queue-group slot list, the index reduced modulo the list length. -/
def pickOne (c : Nat) (l : List Sub) : List Sub :=
  (l[c % l.length]?).toList

/-- Modelled from the spec (§4.1/§4.5): the local deliveries of one
publish — every matching plain subscription, plus exactly one member of
each matching queue group (selected by the choice index `c`). -/
def deliveriesLocal (subs : List Sub) (subj : Subject) (c : Nat) : List Sub :=
  let ms := matchSubs subs subj
  ms.filter (fun s => s.queue == none)
    ++ ((ms.filterMap (fun s => s.queue)).dedup).flatMap
        (fun q => pickOne c (ms.filter (fun s => s.queue == some q)))

/-- Modelled from the spec (§4.5): the frames emitted when the
subscriptions `removed` have just been dropped, leaving `newSubs`.  For
each distinct removed `(subject, queue)` whose refcount reached 0 an
`RS-` goes out (the 1→0 transition); a queue pair still alive only gets
its weight refreshed. -/
def removalFrames (newSubs removed : List Sub) : List Frame :=
  ((removed.map interestOf).dedup.filter
      (fun i => interestCount newSubs i == 0)).map
        (fun i => Frame.rsMinus i.1 i.2)
  ++ ((removed.map interestOf).dedup.filter
      (fun i => interestCount newSubs i != 0 && i.2.isSome)).map
        (fun i => Frame.wUpd i.1 i.2 (interestCount newSubs i))

/-- Modelled from the spec (§4.5, coalescing): the frames emitted when a
new local subscription arrives.  `RS+` goes out exactly on the 0→1
refcount transition; a later join of an existing queue group only
refreshes the weight. -/
def subFrames (subs : List Sub) (s : Sub) : List Frame :=
  if interestCount subs (interestOf s) = 0 then
    [Frame.rsPlus s.pattern s.queue 1]
  else
    match s.queue with
    | some _ => [Frame.wUpd s.pattern s.queue (interestCount subs (interestOf s) + 1)]
    | none => []

/-- Modelled from the spec (§4.3): the client operations the claims
exercise: SUB, immediate UNSUB, UNSUB with a max count (auto-unsub), a
publish (with the queue-choice index), and closing a connection. -/
inductive Op where
  | subscribe (s : Sub)
  | unsub (cid sid : Nat)
  | unsubMax (cid sid max : Nat)
  | publish (subj : Subject) (choice : Nat)
  | closeConn (cid : Nat)
deriving Repr

/-- Per-subscription effect of an immediate `UNSUB sid` (§4.3): the
targeted subscription is dropped, all others kept. -/
def gUnsub (cid sid : Nat) (s : Sub) : List Sub :=
  if s.cid == cid && s.sid == sid then [] else [s]

/-- Per-subscription effect of closing connection `cid` (§3, Lifecycle):
every subscription it owns is dropped. -/
def gClose (cid : Nat) (s : Sub) : List Sub :=
  if s.cid == cid then [] else [s]

/-- Per-subscription effect of `UNSUB sid max` (§4.3, auto-unsubscribe):
if the subscription has already delivered `max` messages it is removed
now, otherwise it stays matchable with the cap armed. -/
def gUnsubMax (cid sid m : Nat) (s : Sub) : List Sub :=
  if s.cid == cid && s.sid == sid then
    (if m ≤ s.delivered then [] else [{ s with maxD := some m }])
  else [s]

/-- Per-subscription effect of one publish having delivered to the
subscriptions `dl` (§3, Subscription invariant): a delivered
subscription's count rises by one, and reaching its cap auto-removes
it. -/
def gDeliver (dl : List Sub) (s : Sub) : List Sub :=
  if dl.any (fun d => d.cid == s.cid && d.sid == s.sid) then
    match s.maxD with
    | some m =>
        if m ≤ s.delivered + 1 then []
        else [{ s with delivered := s.delivered + 1 }]
    | none => [{ s with delivered := s.delivered + 1 }]
  else [s]

/-- One step's outcome: the new subscription set, the frames pushed onto
the route, and the local client deliveries. -/
structure StepOut where
  subs : List Sub
  frames : List Frame
  delivered : List Sub
deriving Repr

/-- Assemble a removal-shaped step from its per-subscription effect `g`:
the kept set is `subs.flatMap g`, the dropped set is those subscriptions
`g` erased, and the route frames follow from the refcounts. -/
def stepRemoval (subs : List Sub) (g : Sub → List Sub) (dl : List Sub) : StepOut :=
  ⟨subs.flatMap g,
   removalFrames (subs.flatMap g) (subs.filter (fun s => (g s).isEmpty)),
   dl⟩

/-- Modelled from the spec (§4.2/§4.3/§4.5): the account-level state
transition of one operation, with the route frames it emits. -/
def step (subs : List Sub) : Op → StepOut
  | .subscribe s => ⟨subs ++ [s], subFrames subs s, []⟩
  | .unsub cid sid => stepRemoval subs (gUnsub cid sid) []
  | .unsubMax cid sid m => stepRemoval subs (gUnsubMax cid sid m) []
  | .closeConn cid => stepRemoval subs (gClose cid) []
  | .publish subj c =>
      stepRemoval subs (gDeliver (deliveriesLocal subs subj c)) (deliveriesLocal subs subj c)

/-- Running state of a server: its subscriptions, the log of frames it
has emitted on the route, and how many local deliveries happened. -/
structure RunState where
  subs : List Sub
  frames : List Frame
  nDelivered : Nat
deriving Repr

def applyStep (st : RunState) (op : Op) : RunState :=
  let o := step st.subs op
  ⟨o.subs, st.frames ++ o.frames, st.nDelivered + o.delivered.length⟩

def runOps (st : RunState) : List Op → RunState
  | [] => st
  | op :: ops => runOps (applyStep st op) ops

/-- Number of `RS+` frames for a given `(subject, queue)` pair in a
frame log. -/
def rsPlusCount (fs : List Frame) (i : Interest) : Nat :=
  fs.countP (fun f => match f with
    | Frame.rsPlus p q _ => decide ((p, q) = i)
    | _ => false)

/-- Number of `RS-` frames for a given `(subject, queue)` pair in a
frame log. -/
def rsMinusCount (fs : List Frame) (i : Interest) : Nat :=
  fs.countP (fun f => match f with
    | Frame.rsMinus p q => decide ((p, q) = i)
    | _ => false)

/-- Number of 0→1 refcount transitions of the pair `i` along an
operation sequence (§4.5, coalescing). -/
def trans01 (subs : List Sub) (ops : List Op) (i : Interest) : Nat :=
  match ops with
  | [] => 0
  | op :: rest =>
      (if interestCount subs i = 0 ∧ interestCount (step subs op).subs i ≠ 0 then 1 else 0)
        + trans01 (step subs op).subs rest i

/-- Number of 1→0 refcount transitions of the pair `i` along an
operation sequence (§4.5, coalescing). -/
def trans10 (subs : List Sub) (ops : List Op) (i : Interest) : Nat :=
  match ops with
  | [] => 0
  | op :: rest =>
      (if interestCount subs i ≠ 0 ∧ interestCount (step subs op).subs i = 0 then 1 else 0)
        + trans10 (step subs op).subs rest i

/-- Modelled from the spec (§4.4, remote-SID bookkeeping and §4.5,
restart semantics): the peer's view of our interest, driven by the frame
log.  `RS+` creates the synthetic subscription for its pair if absent
(duplicates are idempotent), `RS-` purges it, weight updates change no
membership. -/
def remoteApply (r : List Interest) : Frame → List Interest
  | Frame.rsPlus p q _ => if (p, q) ∈ r then r else (p, q) :: r
  | Frame.rsMinus p q => r.erase (p, q)
  | Frame.wUpd _ _ _ => r

def remoteSubs (fs : List Frame) : List Interest :=
  fs.foldl remoteApply []

/-- The remote server's `NumSubscriptions()` contribution of this route:
one synthetic subscription per live advertised pair. -/
def remoteNumSubs (fs : List Frame) : Nat :=
  (remoteSubs fs).length

/-- Modelled from the spec (§4.5, queue distribution rule): the combined
slot multiset of queue group `q` for a publish originating on the server
holding `subsL`, whose peer holds `subsR` — the local members followed by
the remote ones (the peer's weight being its member count, kept accurate
per §4.5). -/
def clusterGroupMembers (subsL subsR : List Sub) (subj : Subject) (q : String) : List Sub :=
  (matchSubs subsL subj).filter (fun s => s.queue == some q)
    ++ (matchSubs subsR subj).filter (fun s => s.queue == some q)

/-- Modelled from the spec (§4.5, queue distribution rule): pick an index
uniformly in the combined multiset; a local slot delivers locally, a
remote slot forwards one `RMSG` whose receiving server then delivers to
exactly one of its own members (its pick driven by `cR`). -/
def queueDeliverCluster (subsL subsR : List Sub) (subj : Subject) (q : String)
    (c cR : Nat) : List Sub :=
  let locals := (matchSubs subsL subj).filter (fun s => s.queue == some q)
  let remotes := (matchSubs subsR subj).filter (fun s => s.queue == some q)
  if c % (locals.length + remotes.length) < locals.length then
    (locals[c % (locals.length + remotes.length)]?).toList
  else
    pickOne cR remotes

/-- Modelled from the spec (§2 data flow, §4.4 forwarding rules): the
full set of client deliveries of one publish across a two-server
cluster — all plain matches on both sides (the remote ones via a single
`RMSG` per route), plus exactly one pick per matching queue group. -/
def deliverCluster (subsL subsR : List Sub) (subj : Subject) (c cR : Nat) : List Sub :=
  let mL := matchSubs subsL subj
  let mR := matchSubs subsR subj
  mL.filter (fun s => s.queue == none) ++ mR.filter (fun s => s.queue == none)
    ++ (((mL ++ mR).filterMap (fun s => s.queue)).dedup).flatMap
        (fun q => queueDeliverCluster subsL subsR subj q c cR)

lemma pickOne_of_ne_nil (c : Nat) (l : List Sub) (h : l ≠ []) :
    ∃ s, pickOne c l = [s] ∧ s ∈ l := by
  have hlt : c % l.length < l.length := Nat.mod_lt _ (List.length_pos.2 h)
  exact ⟨l[c % l.length], by simp [pickOne, List.getElem?_eq_getElem hlt],
    List.getElem_mem hlt⟩

lemma queueDeliverCluster_one (subsL subsR : List Sub) (subj : Subject) (q : String)
    (c cR : Nat) (h : clusterGroupMembers subsL subsR subj q ≠ []) :
    ∃ s, queueDeliverCluster subsL subsR subj q c cR = [s]
      ∧ s ∈ clusterGroupMembers subsL subsR subj q := by
  set locals := (matchSubs subsL subj).filter (fun s => s.queue == some q) with hL
  set remotes := (matchSubs subsR subj).filter (fun s => s.queue == some q) with hR
  have hmem : clusterGroupMembers subsL subsR subj q = locals ++ remotes := rfl
  have hn : 0 < locals.length + remotes.length := by
    rcases List.length_pos.2 (hmem ▸ h) with hp
    simpa [List.length_append] using hp
  by_cases hc : c % (locals.length + remotes.length) < locals.length
  · have hlt : c % (locals.length + remotes.length) < locals.length := hc
    refine ⟨locals[c % (locals.length + remotes.length)], ?_, ?_⟩
    · simp [queueDeliverCluster, ← hL, ← hR, if_pos hc, List.getElem?_eq_getElem hlt]
    · rw [hmem]
      exact List.mem_append_left _ (List.getElem_mem hlt)
  · have hcn : c % (locals.length + remotes.length) < locals.length + remotes.length :=
      Nat.mod_lt _ hn
    have hrpos : remotes ≠ [] := by
      intro hnil
      have hlp : 0 < locals.length := by
        rw [hnil] at hn
        simpa using hn
      exact hc (by rw [hnil]; simpa using Nat.mod_lt c hlp)
    obtain ⟨s, hs, hsm⟩ := pickOne_of_ne_nil cR remotes hrpos
    refine ⟨s, ?_, ?_⟩
    · simp [queueDeliverCluster, ← hL, ← hR, if_neg hc, hs]
    · rw [hmem]
      exact List.mem_append_right _ hsm

lemma interestCount_nil (i : Interest) : interestCount [] i = 0 := rfl

lemma interestCount_cons (s : Sub) (l : List Sub) (i : Interest) :
    interestCount (s :: l) i = interestCount l i + (if interestOf s = i then 1 else 0) := by
  simp [interestCount, List.countP_cons]

lemma interestCount_append (l₁ l₂ : List Sub) (i : Interest) :
    interestCount (l₁ ++ l₂) i = interestCount l₁ i + interestCount l₂ i := by
  simp [interestCount, List.countP_append]

lemma interestCount_singleton (s : Sub) (i : Interest) :
    interestCount [s] i = if interestOf s = i then 1 else 0 := by
  rw [interestCount_cons, interestCount_nil, Nat.zero_add]

lemma interestCount_ne_zero_iff (l : List Sub) (i : Interest) :
    interestCount l i ≠ 0 ↔ ∃ s ∈ l, interestOf s = i := by
  constructor
  · intro h
    have hp : 0 < l.countP (fun s => decide (interestOf s = i)) :=
      Nat.pos_of_ne_zero h
    simpa using List.countP_pos_iff.1 hp
  · rintro ⟨s, hs, hi⟩
    have hp : 0 < l.countP (fun s => decide (interestOf s = i)) :=
      List.countP_pos_iff.2 ⟨s, hs, by simp [hi]⟩
    exact Nat.pos_iff_ne_zero.1 hp

/-- A per-subscription removal effect either erases the subscription or
keeps a single successor with the same `(subject, queue)` pair. -/
def IPres (g : Sub → List Sub) : Prop :=
  ∀ s, g s = [] ∨ ∃ s', g s = [s'] ∧ interestOf s' = interestOf s

lemma iPres_gUnsub (cid sid : Nat) : IPres (gUnsub cid sid) := by
  intro s
  unfold gUnsub
  split
  · exact Or.inl rfl
  · exact Or.inr ⟨s, rfl, rfl⟩

lemma iPres_gClose (cid : Nat) : IPres (gClose cid) := by
  intro s
  unfold gClose
  split
  · exact Or.inl rfl
  · exact Or.inr ⟨s, rfl, rfl⟩

lemma iPres_gUnsubMax (cid sid m : Nat) : IPres (gUnsubMax cid sid m) := by
  intro s
  unfold gUnsubMax
  split
  · split
    · exact Or.inl rfl
    · exact Or.inr ⟨_, rfl, rfl⟩
  · exact Or.inr ⟨s, rfl, rfl⟩

lemma iPres_gDeliver (dl : List Sub) : IPres (gDeliver dl) := by
  intro s
  unfold gDeliver
  split
  · cases hm : s.maxD with
    | some m =>
        simp only [hm]
        split
        · exact Or.inl rfl
        · exact Or.inr ⟨_, rfl, rfl⟩
    | none =>
        simp only [hm]
        exact Or.inr ⟨_, rfl, rfl⟩
  · exact Or.inr ⟨s, rfl, rfl⟩

lemma interestCount_flatMap_le (g : Sub → List Sub) (hg : IPres g)
    (subs : List Sub) (i : Interest) :
    interestCount (subs.flatMap g) i ≤ interestCount subs i := by
  induction subs with
  | nil => simp [interestCount]
  | cons s rest ih =>
      rw [List.flatMap_cons, interestCount_append, interestCount_cons]
      rcases hg s with h0 | ⟨s', hgs, hi⟩
      · rw [h0, interestCount_nil]
        omega
      · rw [hgs, interestCount_singleton, hi]
        omega

lemma removed_interest_mem (g : Sub → List Sub) (hg : IPres g) (i : Interest) :
    ∀ subs : List Sub, interestCount (subs.flatMap g) i = 0 → interestCount subs i ≠ 0 →
      i ∈ (subs.filter (fun s => (g s).isEmpty)).map interestOf := by
  intro subs
  induction subs with
  | nil =>
      intro _ hnz
      exact absurd rfl hnz
  | cons s rest ih =>
      intro hz hnz
      rw [List.flatMap_cons, interestCount_append] at hz
      have hz1 : interestCount (g s) i = 0 := by omega
      have hz2 : interestCount (rest.flatMap g) i = 0 := by omega
      rw [interestCount_cons] at hnz
      by_cases hi : interestOf s = i
      · rcases hg s with h0 | ⟨s', hgs, hs'⟩
        · have hemp : (g s).isEmpty = true := by rw [h0]; rfl
          rw [List.filter_cons, if_pos hemp]
          exact List.mem_map.2 ⟨s, List.mem_cons_self s _, hi⟩
        · exfalso
          rw [hgs, interestCount_singleton, hs', if_pos hi] at hz1
          exact one_ne_zero hz1
      · have hnz2 : interestCount rest i ≠ 0 := by
          rw [if_neg hi] at hnz
          omega
        have hmem := ih hz2 hnz2
        rw [List.filter_cons]
        split
        · exact List.mem_map.2 (by
            obtain ⟨t, ht, hti⟩ := List.mem_map.1 hmem
            exact ⟨t, List.mem_cons_of_mem _ ht, hti⟩)
        · exact hmem

lemma nodup_countP_eq (i : Interest) :
    ∀ {l : List Interest}, l.Nodup →
      l.countP (fun x => decide (x = i)) = if i ∈ l then 1 else 0 := by
  intro l hl
  induction l with
  | nil => simp
  | cons a rest ih =>
      rw [List.countP_cons]
      have hnd := List.nodup_cons.1 hl
      have hrest := ih hnd.2
      by_cases ha : a = i
      · have hni : i ∉ rest := ha ▸ hnd.1
        rw [hrest, if_neg hni, if_pos (by simp [ha]), if_pos (by simp [ha])]
      · have hia : ¬ i = a := fun h => ha h.symm
        by_cases hi : i ∈ rest <;> simp [hrest, hi, ha, List.mem_cons, hia]

lemma rsPlusCount_removalFrames (ns rm : List Sub) (i : Interest) :
    rsPlusCount (removalFrames ns rm) i = 0 := by
  refine List.countP_eq_zero.2 ?_
  intro f hf
  simp only [removalFrames, List.mem_append, List.mem_map] at hf
  rcases hf with ⟨i', _, rfl⟩ | ⟨i', _, rfl⟩ <;> simp

lemma rsMinusCount_removalFrames (ns rm : List Sub) (i : Interest) :
    rsMinusCount (removalFrames ns rm) i
      = if i ∈ rm.map interestOf ∧ interestCount ns i = 0 then 1 else 0 := by
  unfold rsMinusCount removalFrames
  rw [List.countP_append]
  have h2 : List.countP
      (fun f => match f with
        | Frame.rsMinus p q => decide ((p, q) = i)
        | _ => false)
      (((rm.map interestOf).dedup.filter
          (fun i => interestCount ns i != 0 && i.2.isSome)).map
            (fun i => Frame.wUpd i.1 i.2 (interestCount ns i))) = 0 := by
    refine List.countP_eq_zero.2 ?_
    intro f hf
    obtain ⟨i', _, rfl⟩ := List.mem_map.1 hf
    simp
  rw [h2, Nat.add_zero, List.countP_map]
  have hcomp : List.countP
      ((fun f => match f with
        | Frame.rsMinus p q => decide ((p, q) = i)
        | _ => false) ∘ (fun i => Frame.rsMinus i.1 i.2))
      ((rm.map interestOf).dedup.filter (fun i => interestCount ns i == 0))
      = List.countP (fun x => decide (x = i))
          ((rm.map interestOf).dedup.filter (fun i => interestCount ns i == 0)) := rfl
  rw [hcomp,
    nodup_countP_eq i (List.Nodup.filter _ (List.nodup_dedup _))]
  by_cases hmem : i ∈ (rm.map interestOf).dedup.filter (fun i => interestCount ns i == 0)
  · rw [if_pos hmem]
    have := List.mem_filter.1 hmem
    rw [if_pos ⟨List.mem_dedup.1 this.1, by simpa using this.2⟩]
  · rw [if_neg hmem]
    by_cases hr : i ∈ rm.map interestOf ∧ interestCount ns i = 0
    · exact absurd (List.mem_filter.2 ⟨List.mem_dedup.2 hr.1, by simp [hr.2]⟩) hmem
    · rw [if_neg hr]

lemma removalStep_rsPlus (g : Sub → List Sub) (hg : IPres g)
    (subs dl : List Sub) (i : Interest) :
    rsPlusCount (stepRemoval subs g dl).frames i
      = if interestCount subs i = 0 ∧ interestCount (stepRemoval subs g dl).subs i ≠ 0
        then 1 else 0 := by
  have h0 : rsPlusCount (stepRemoval subs g dl).frames i = 0 :=
    rsPlusCount_removalFrames _ _ _
  rw [h0]
  have hle := interestCount_flatMap_le g hg subs i
  rw [if_neg]
  rintro ⟨hz, hnz⟩
  exact hnz (by simp only [stepRemoval]; omega)

lemma removalStep_rsMinus (g : Sub → List Sub) (hg : IPres g)
    (subs dl : List Sub) (i : Interest) :
    rsMinusCount (stepRemoval subs g dl).frames i
      = if interestCount subs i ≠ 0 ∧ interestCount (stepRemoval subs g dl).subs i = 0
        then 1 else 0 := by
  have h1 : rsMinusCount (stepRemoval subs g dl).frames i
      = if i ∈ (subs.filter (fun s => (g s).isEmpty)).map interestOf
            ∧ interestCount (subs.flatMap g) i = 0
        then 1 else 0 :=
    rsMinusCount_removalFrames _ _ _
  rw [h1]
  have hiff : (i ∈ (subs.filter (fun s => (g s).isEmpty)).map interestOf
        ∧ interestCount (subs.flatMap g) i = 0)
      ↔ (interestCount subs i ≠ 0 ∧ interestCount (subs.flatMap g) i = 0) := by
    constructor
    · rintro ⟨hm, hz⟩
      obtain ⟨s, hs, hi⟩ := List.mem_map.1 hm
      exact ⟨(interestCount_ne_zero_iff subs i).2 ⟨s, (List.mem_filter.1 hs).1, hi⟩, hz⟩
    · rintro ⟨hnz, hz⟩
      exact ⟨removed_interest_mem g hg i subs hz hnz, hz⟩
  simp only [stepRemoval]
  by_cases hc : interestCount subs i ≠ 0 ∧ interestCount (subs.flatMap g) i = 0
  · rw [if_pos (hiff.2 hc), if_pos hc]
  · rw [if_neg (fun h => hc (hiff.1 h)), if_neg hc]

lemma step_rsPlus (subs : List Sub) (op : Op) (i : Interest) :
    rsPlusCount (step subs op).frames i
      = if interestCount subs i = 0 ∧ interestCount (step subs op).subs i ≠ 0
        then 1 else 0 := by
  cases op with
  | subscribe s =>
      have happ : interestCount (subs ++ [s]) i
          = interestCount subs i + (if interestOf s = i then 1 else 0) := by
        rw [interestCount_append, interestCount_singleton]
      show rsPlusCount (subFrames subs s) i
        = if interestCount subs i = 0 ∧ interestCount (subs ++ [s]) i ≠ 0 then 1 else 0
      unfold subFrames
      by_cases hz : interestCount subs (interestOf s) = 0
      · rw [if_pos hz]
        by_cases hi : interestOf s = i
        · have hzi : interestCount subs i = 0 := hi ▸ hz
          rw [if_pos ⟨hzi, by rw [happ, hzi, if_pos hi]; omega⟩]
          have : ((s.pattern, s.queue) : Interest) = i := hi
          simp [rsPlusCount, List.countP_cons, this]
        · have : ¬ ((s.pattern, s.queue) : Interest) = i := hi
          rw [if_neg (by
            rintro ⟨hc0, hcn⟩
            rw [happ, hc0, if_neg hi] at hcn
            exact hcn rfl)]
          simp [rsPlusCount, List.countP_cons, this]
      · rw [if_neg hz]
        have hcount : rsPlusCount
            (match s.queue with
              | some _ => [Frame.wUpd s.pattern s.queue (interestCount subs (interestOf s) + 1)]
              | none => []) i = 0 := by
          cases s.queue <;> simp [rsPlusCount]
        rw [hcount, if_neg]
        rintro ⟨hc0, hcn⟩
        by_cases hi : interestOf s = i
        · exact hz (hi ▸ hc0)
        · rw [happ, hc0, if_neg hi] at hcn
          exact hcn rfl
  | unsub cid sid => exact removalStep_rsPlus _ (iPres_gUnsub cid sid) subs [] i
  | unsubMax cid sid m => exact removalStep_rsPlus _ (iPres_gUnsubMax cid sid m) subs [] i
  | closeConn cid => exact removalStep_rsPlus _ (iPres_gClose cid) subs [] i
  | publish subj c =>
      exact removalStep_rsPlus _ (iPres_gDeliver (deliveriesLocal subs subj c)) subs
        (deliveriesLocal subs subj c) i

lemma step_rsMinus (subs : List Sub) (op : Op) (i : Interest) :
    rsMinusCount (step subs op).frames i
      = if interestCount subs i ≠ 0 ∧ interestCount (step subs op).subs i = 0
        then 1 else 0 := by
  cases op with
  | subscribe s =>
      have happ : interestCount (subs ++ [s]) i
          = interestCount subs i + (if interestOf s = i then 1 else 0) := by
        rw [interestCount_append, interestCount_singleton]
      show rsMinusCount (subFrames subs s) i
        = if interestCount subs i ≠ 0 ∧ interestCount (subs ++ [s]) i = 0 then 1 else 0
      have hcount : rsMinusCount (subFrames subs s) i = 0 := by
        unfold subFrames
        split
        · simp [rsMinusCount]
        · cases s.queue <;> simp [rsMinusCount]
      rw [hcount, if_neg]
      rintro ⟨hnz, hz⟩
      rw [happ] at hz
      exact hnz (by omega)
  | unsub cid sid => exact removalStep_rsMinus _ (iPres_gUnsub cid sid) subs [] i
  | unsubMax cid sid m => exact removalStep_rsMinus _ (iPres_gUnsubMax cid sid m) subs [] i
  | closeConn cid => exact removalStep_rsMinus _ (iPres_gClose cid) subs [] i
  | publish subj c =>
      exact removalStep_rsMinus _ (iPres_gDeliver (deliveriesLocal subs subj c)) subs
        (deliveriesLocal subs subj c) i

lemma rsPlusCount_append (a b : List Frame) (i : Interest) :
    rsPlusCount (a ++ b) i = rsPlusCount a i + rsPlusCount b i := by
  simp [rsPlusCount, List.countP_append]

lemma rsMinusCount_append (a b : List Frame) (i : Interest) :
    rsMinusCount (a ++ b) i = rsMinusCount a i + rsMinusCount b i := by
  simp [rsMinusCount, List.countP_append]

lemma run_rsPlusCount (ops : List Op) :
    ∀ (st : RunState) (i : Interest),
      rsPlusCount (runOps st ops).frames i = rsPlusCount st.frames i + trans01 st.subs ops i := by
  induction ops with
  | nil => intro st i; simp [runOps, trans01]
  | cons op rest ih =>
      intro st i
      show rsPlusCount (runOps (applyStep st op) rest).frames i = _
      rw [ih]
      show rsPlusCount (st.frames ++ (step st.subs op).frames) i
            + trans01 (step st.subs op).subs rest i = _
      rw [rsPlusCount_append, step_rsPlus]
      show _ = rsPlusCount st.frames i
        + ((if interestCount st.subs i = 0 ∧ interestCount (step st.subs op).subs i ≠ 0
              then 1 else 0)
            + trans01 (step st.subs op).subs rest i)
      omega

lemma run_rsMinusCount (ops : List Op) :
    ∀ (st : RunState) (i : Interest),
      rsMinusCount (runOps st ops).frames i = rsMinusCount st.frames i + trans10 st.subs ops i := by
  induction ops with
  | nil => intro st i; simp [runOps, trans10]
  | cons op rest ih =>
      intro st i
      show rsMinusCount (runOps (applyStep st op) rest).frames i = _
      rw [ih]
      show rsMinusCount (st.frames ++ (step st.subs op).frames) i
            + trans10 (step st.subs op).subs rest i = _
      rw [rsMinusCount_append, step_rsMinus]
      show _ = rsMinusCount st.frames i
        + ((if interestCount st.subs i ≠ 0 ∧ interestCount (step st.subs op).subs i = 0
              then 1 else 0)
            + trans10 (step st.subs op).subs rest i)
      omega

/-- Scenario of TestClusterQueueSubs: three queue subscriptions on
`foo` in group `qg1`, sids 1, 2, 3, on one server of a routed pair. -/
def threeQSubOps : List Op :=
  [Op.subscribe ⟨1, 1, ["foo"], some "qg1", none, 0⟩,
   Op.subscribe ⟨1, 2, ["foo"], some "qg1", none, 0⟩,
   Op.subscribe ⟨1, 3, ["foo"], some "qg1", none, 0⟩]

def threeQSubRun : RunState := runOps ⟨[], [], 0⟩ threeQSubOps

/-- Scenario of TestClusterDropsRemoteSids: `SUB foo 1`, `SUB bar 2`,
`UNSUB 1`, then the owning connection closes. -/
def dropSidsOps : List Op :=
  [Op.subscribe ⟨1, 1, ["foo"], none, none, 0⟩,
   Op.subscribe ⟨1, 2, ["bar"], none, none, 0⟩,
   Op.unsub 1 1,
   Op.closeConn 1]

/-- Scenario of TestAutoUnsubscribePropagation: `SUB foo i`,
`UNSUB i 1`, `PUB foo` repeated one hundred times. -/
def autoUnsubOps : List Op :=
  (List.range 100).flatMap (fun k =>
    [Op.subscribe ⟨1, k + 1, ["foo"], none, none, 0⟩,
     Op.unsubMax 1 (k + 1) 1,
     Op.publish ["foo"] 0])

def autoUnsubRun : RunState := runOps ⟨[], [], 0⟩ autoUnsubOps

/-- Scenario of TestServerRestartAndQueueSubs: client 1's subscriptions,
one queue member of `workers` on `foo.bar` and one plain wildcard sub on
`foo.*`. -/
def client1Subs : List Sub :=
  [⟨1, 1, ["foo", "bar"], some "workers", none, 0⟩,
   ⟨1, 2, ["foo", "*"], none, none, 0⟩]

/-- Scenario of TestServerRestartAndQueueSubs: client 2's subscriptions,
mirroring client 1 from the other server. -/
def client2Subs : List Sub :=
  [⟨2, 1, ["foo", "bar"], some "workers", none, 0⟩,
   ⟨2, 2, ["foo", "*"], none, none, 0⟩]

/-- Modelled from the spec (§4.6): a server's cluster name is either
explicitly configured or ephemeral (picked at start, replaceable). -/
inductive ClusterNameCfg where
  | named (n : String)
  | dynamic (n : String)
deriving DecidableEq, Repr

/-- Outcome of the INFO exchange when a route connects. -/
inductive RouteOutcome where
  | accepted (name : String)
  | rejected (msg : String)
deriving DecidableEq, Repr

/-- Modelled from the spec (§4.6): the error logged when two explicitly
configured cluster names differ. -/
def clusterNameMismatchMsg (theirs ours : String) : String :=
  "Rejecting connection, cluster name " ++ theirs ++ " "
    ++ "does not match" ++ (" " ++ ours)

/-- Modelled from the spec (§4.6): cluster-name negotiation.  Two
explicit names must agree or the connection is rejected; an ephemeral
side adopts the other side's name. -/
def negotiateClusterName : ClusterNameCfg → ClusterNameCfg → RouteOutcome
  | .named a, .named b =>
      if a = b then .accepted a else .rejected (clusterNameMismatchMsg b a)
  | .named a, .dynamic _ => .accepted a
  | .dynamic _, .named b => .accepted b
  | .dynamic a, .dynamic _ => .accepted a

def routeFormed : RouteOutcome → Bool
  | .accepted _ => true
  | .rejected _ => false

/-- Modelled from the spec (§4.7): the startup validation error for the
lame-duck options. -/
def ldmValidationMsg (gp dur : Int) : String :=
  "lame duck grace period (" ++ toString gp ++ ") "
    ++ "should be strictly lower" ++ (" than lame duck duration ("
    ++ toString dur ++ ")")

/-- Modelled from the spec (§4.7): server construction validates that
the lame-duck grace period is strictly less than the lame-duck duration
(durations in nanoseconds, signed as in the source's time type).  The
comparison is the literal `grace ≥ duration` check, which negative grace
periods slip past. -/
def validateLameDuckOptions (gracePeriod duration : Int) : Option String :=
  if duration ≤ gracePeriod then some (ldmValidationMsg gracePeriod duration)
  else none

/-- Modelled from the spec (§4.7) and the lame-duck test expectations:
the observable server flags lame-duck entry manipulates. -/
structure SrvState where
  ldm : Bool
  shuttingDown : Bool
  clients : Nat
deriving DecidableEq, Repr

def isShuttingDown (s : SrvState) : Bool := s.shuttingDown

/-- Modelled from the spec (§4.7) and the lame-duck test: entering
lame-duck mode is a no-op while lame-duck or shutdown is already in
progress; with no connected clients it completes a full shutdown
immediately; otherwise it stops accepting clients and starts the
eviction schedule. -/
def lameDuckMode (s : SrvState) : SrvState :=
  if s.ldm || s.shuttingDown then s
  else if s.clients == 0 then { s with ldm := true, shuttingDown := true }
  else { s with ldm := true }

/-- C1: for every `(subject, queue)` pair, the number of `RS+` frames a
server emits over any operation sequence equals the number of 0→1
refcount transitions of that pair (and `RS-` likewise the 1→0
transitions) — not the number of local subscriptions; concretely, three
local queue subscriptions on `foo`/`qg1` emit exactly one `RS+`, so the
remote server reports 1 subscription while the local one holds 3. -/
theorem rs_frames_coalesce_per_transition :
    (∀ (st : RunState) (ops : List Op) (i : Interest),
        rsPlusCount (runOps st ops).frames i
          = rsPlusCount st.frames i + trans01 st.subs ops i)
    ∧ (∀ (st : RunState) (ops : List Op) (i : Interest),
        rsMinusCount (runOps st ops).frames i
          = rsMinusCount st.frames i + trans10 st.subs ops i)
    ∧ rsPlusCount threeQSubRun.frames (["foo"], some "qg1") = 1
    ∧ threeQSubRun.subs.length = 3
    ∧ remoteNumSubs threeQSubRun.frames = 1 :=
  ⟨fun st ops i => run_rsPlusCount ops st i,
   fun st ops i => run_rsMinusCount ops st i,
   by decide, by decide, by decide⟩

/-- C2: a publish matching a queue group with at least one member across
the cluster is delivered to exactly one member of the group, whichever
of the two choice draws (local index, remote server's index) occurs —
including when the chosen slot is remote and the message crosses the
route. -/
theorem queue_group_delivers_exactly_one :
    ∀ (subsL subsR : List Sub) (subj : Subject) (q : String) (c cR : Nat),
      clusterGroupMembers subsL subsR subj q ≠ [] →
      ∃ s, queueDeliverCluster subsL subsR subj q c cR = [s]
        ∧ s ∈ clusterGroupMembers subsL subsR subj q :=
  fun subsL subsR subj q c cR h => queueDeliverCluster_one subsL subsR subj q c cR h

theorem queue_group_delivers_exactly_one_witness :
    clusterGroupMembers [] [⟨2, 1, ["foo"], some "bar", none, 0⟩] ["foo"] "bar" ≠ []
    ∧ ∃ s, queueDeliverCluster [] [⟨2, 1, ["foo"], some "bar", none, 0⟩] ["foo"] "bar" 0 0 = [s]
        ∧ s ∈ clusterGroupMembers [] [⟨2, 1, ["foo"], some "bar", none, 0⟩] ["foo"] "bar" :=
  ⟨by decide,
   queue_group_delivers_exactly_one [] [⟨2, 1, ["foo"], some "bar", none, 0⟩] ["foo"] "bar" 0 0
     (by decide)⟩

/-- C3: with each of the two clients holding one `workers` queue member
on `foo.bar` and one plain sub on `foo.*`, every publish to `foo.bar` is
delivered exactly 3 times in aggregate (once via the queue group, once
per wildcard sub), whatever the queue choice draws — in the original
placement for publishes originating on client 1's server and for
publishes originating on client 2's server (the claim's sequence
alternates between the two, crossing the route in both directions), and
in the post-restart placement with both clients on one server (where
every publish originates there), so repeating the publishes after a
restart yields the identical result. -/
theorem cluster_queue_and_wildcard_triple_delivery :
    (∀ c cR : Nat, (deliverCluster client1Subs client2Subs ["foo", "bar"] c cR).length = 3)
    ∧ (∀ c cR : Nat, (deliverCluster client2Subs client1Subs ["foo", "bar"] c cR).length = 3)
    ∧ (∀ c cR : Nat,
        (deliverCluster (client1Subs ++ client2Subs) [] ["foo", "bar"] c cR).length = 3) := by
  refine ⟨?_, ?_, ?_⟩
  · intro c cR
    obtain ⟨s, hs, _⟩ :=
      queueDeliverCluster_one client1Subs client2Subs ["foo", "bar"] "workers" c cR (by decide)
    have hd : deliverCluster client1Subs client2Subs ["foo", "bar"] c cR
        = [⟨1, 2, ["foo", "*"], none, none, 0⟩] ++ [⟨2, 2, ["foo", "*"], none, none, 0⟩]
          ++ (queueDeliverCluster client1Subs client2Subs ["foo", "bar"] "workers" c cR
              ++ []) := rfl
    rw [hd, hs]
    simp
  · intro c cR
    obtain ⟨s, hs, _⟩ :=
      queueDeliverCluster_one client2Subs client1Subs ["foo", "bar"] "workers" c cR (by decide)
    have hd : deliverCluster client2Subs client1Subs ["foo", "bar"] c cR
        = [⟨2, 2, ["foo", "*"], none, none, 0⟩] ++ [⟨1, 2, ["foo", "*"], none, none, 0⟩]
          ++ (queueDeliverCluster client2Subs client1Subs ["foo", "bar"] "workers" c cR
              ++ []) := rfl
    rw [hd, hs]
    simp
  · intro c cR
    obtain ⟨s, hs, _⟩ :=
      queueDeliverCluster_one (client1Subs ++ client2Subs) [] ["foo", "bar"] "workers" c cR
        (by decide)
    have hd : deliverCluster (client1Subs ++ client2Subs) [] ["foo", "bar"] c cR
        = [⟨1, 2, ["foo", "*"], none, none, 0⟩, ⟨2, 2, ["foo", "*"], none, none, 0⟩] ++ []
          ++ (queueDeliverCluster (client1Subs ++ client2Subs) [] ["foo", "bar"] "workers" c cR
              ++ []) := rfl
    rw [hd, hs]
    simp

/-- C4: after `UNSUB sid` no subsequent match returns that sid; when the
last subscription of a `(subject, queue)` pair goes, the refcount is 0
and an `RS-` frame is emitted; closing a connection removes all of its
subscriptions; concretely (TestClusterDropsRemoteSids) the counts on
both sides go 2, then 1 after the UNSUB, then 0 after the close. -/
theorem unsub_and_close_purge_interest :
    (∀ (subs : List Sub) (cid sid : Nat) (subj : Subject) (s : Sub),
        s ∈ matchSubs (step subs (Op.unsub cid sid)).subs subj →
        ¬(s.cid = cid ∧ s.sid = sid))
    ∧ (∀ (subs : List Sub) (cid sid : Nat) (i : Interest),
        interestCount subs i ≠ 0 →
        interestCount (step subs (Op.unsub cid sid)).subs i = 0 →
        Frame.rsMinus i.1 i.2 ∈ (step subs (Op.unsub cid sid)).frames)
    ∧ (∀ (subs : List Sub) (cid : Nat) (s : Sub),
        s ∈ (step subs (Op.closeConn cid)).subs → s.cid ≠ cid)
    ∧ (runOps ⟨[], [], 0⟩ (dropSidsOps.take 2)).subs.length = 2
    ∧ remoteNumSubs (runOps ⟨[], [], 0⟩ (dropSidsOps.take 2)).frames = 2
    ∧ (runOps ⟨[], [], 0⟩ (dropSidsOps.take 3)).subs.length = 1
    ∧ remoteNumSubs (runOps ⟨[], [], 0⟩ (dropSidsOps.take 3)).frames = 1
    ∧ (runOps ⟨[], [], 0⟩ dropSidsOps).subs = []
    ∧ remoteNumSubs (runOps ⟨[], [], 0⟩ dropSidsOps).frames = 0 := by
  refine ⟨?_, ?_, ?_, by decide, by decide, by decide, by decide, by decide, by decide⟩
  · intro subs cid sid subj s hs hcs
    have hmem : s ∈ subs.flatMap (gUnsub cid sid) := (List.mem_filter.1 hs).1
    obtain ⟨t, ht, hst⟩ := List.mem_flatMap.1 hmem
    unfold gUnsub at hst
    by_cases hc : (t.cid == cid && t.sid == sid) = true
    · rw [if_pos hc] at hst
      exact absurd hst (List.not_mem_nil s)
    · rw [if_neg hc] at hst
      have hts : s = t := List.mem_singleton.1 hst
      subst hts
      exact hc (by simp [hcs.1, hcs.2])
  · intro subs cid sid i hnz hz
    have h1 := step_rsMinus subs (Op.unsub cid sid) i
    rw [if_pos ⟨hnz, hz⟩] at h1
    have hpos : 0 < rsMinusCount (step subs (Op.unsub cid sid)).frames i := by omega
    obtain ⟨f, hf, hfp⟩ := List.countP_pos_iff.1 hpos
    cases f with
    | rsMinus p q =>
        have hpq : (p, q) = i := by simpa using hfp
        subst hpq
        exact hf
    | rsPlus p q w => simp at hfp
    | wUpd p q w => simp at hfp
  · intro subs cid s hs hcid
    have hmem : s ∈ subs.flatMap (gClose cid) := hs
    obtain ⟨t, ht, hst⟩ := List.mem_flatMap.1 hmem
    unfold gClose at hst
    by_cases hc : (t.cid == cid) = true
    · rw [if_pos hc] at hst
      exact absurd hst (List.not_mem_nil s)
    · rw [if_neg hc] at hst
      have hts : s = t := List.mem_singleton.1 hst
      subst hts
      exact hc (by simp [hcid])

theorem unsub_and_close_purge_interest_witness :
    interestCount [⟨1, 1, ["foo"], none, none, 0⟩] (["foo"], none) ≠ 0
    ∧ Frame.rsMinus ["foo"] none
        ∈ (step [⟨1, 1, ["foo"], none, none, 0⟩] (Op.unsub 1 1)).frames :=
  ⟨by decide,
   unsub_and_close_purge_interest.2.1 [⟨1, 1, ["foo"], none, none, 0⟩] 1 1 (["foo"], none)
     (by decide) (by decide)⟩

set_option maxRecDepth 400000 in
/-- C5: arming `UNSUB sid max` on a subscription that has delivered
fewer than `max` messages keeps it matchable (with the cap recorded);
and in the TestAutoUnsubscribePropagation scenario — `SUB foo i`,
`UNSUB i 1`, `PUB foo` repeated 100 times — the client receives exactly
100 messages, no subscription survives, and the remote server's
subscription count settles to 0. -/
theorem auto_unsubscribe_propagation :
    (∀ (subs : List Sub) (s : Sub) (m : Nat), s ∈ subs → s.delivered < m →
        { s with maxD := some m } ∈ (step subs (Op.unsubMax s.cid s.sid m)).subs)
    ∧ autoUnsubRun.nDelivered = 100
    ∧ autoUnsubRun.subs = []
    ∧ remoteNumSubs autoUnsubRun.frames = 0 := by
  refine ⟨?_, by decide, by decide, by decide⟩
  intro subs s m hmem hlt
  refine List.mem_flatMap.2 ⟨s, hmem, ?_⟩
  unfold gUnsubMax
  rw [if_pos (by simp), if_neg (Nat.not_le.2 hlt)]
  exact List.mem_singleton.2 rfl

theorem auto_unsubscribe_propagation_witness :
    (⟨1, 1, ["foo"], none, some 1, 0⟩ : Sub)
      ∈ (step [⟨1, 1, ["foo"], none, none, 0⟩] (Op.unsubMax 1 1 1)).subs :=
  auto_unsubscribe_propagation.1 [⟨1, 1, ["foo"], none, none, 0⟩]
    ⟨1, 1, ["foo"], none, none, 0⟩ 1 (by decide) (by decide)

/-- C7: when two servers with different explicitly configured cluster
names attempt a route, the connection is rejected — no route forms — and
the rejection error mentions "does not match". -/
theorem cluster_name_mismatch_rejects_route :
    ∀ a b : String, a ≠ b →
      negotiateClusterName (.named a) (.named b)
          = .rejected (clusterNameMismatchMsg b a)
      ∧ routeFormed (negotiateClusterName (.named a) (.named b)) = false
      ∧ ∃ pre post, clusterNameMismatchMsg b a = pre ++ "does not match" ++ post := by
  intro a b hab
  refine ⟨by simp [negotiateClusterName, hab], by simp [negotiateClusterName, routeFormed, hab],
    ⟨"Rejecting connection, cluster name " ++ b ++ " ", " " ++ a, ?_⟩⟩
  simp [clusterNameMismatchMsg, String.append_assoc]

theorem cluster_name_mismatch_rejects_route_witness :
    negotiateClusterName (.named "MyCluster33") (.named "MyCluster22")
        = .rejected (clusterNameMismatchMsg "MyCluster22" "MyCluster33")
    ∧ routeFormed (negotiateClusterName (.named "MyCluster33") (.named "MyCluster22")) = false
    ∧ ∃ pre post,
        clusterNameMismatchMsg "MyCluster22" "MyCluster33" = pre ++ "does not match" ++ post :=
  cluster_name_mismatch_rejects_route "MyCluster33" "MyCluster22" (by decide)

/-- C8: server construction fails with a validation error saying the
grace period "should be strictly lower" whenever the configured
lame-duck grace period is greater than or equal to the lame-duck
duration; a strictly smaller grace period passes, so in particular
negative grace periods (the test back door) are accepted even when their
magnitude exceeds the duration. -/
theorem ldm_grace_period_validation :
    (∀ gp dur : Int, dur ≤ gp →
        ∃ e, validateLameDuckOptions gp dur = some e
          ∧ ∃ pre post, e = pre ++ "should be strictly lower" ++ post)
    ∧ (∀ gp dur : Int, gp < dur → validateLameDuckOptions gp dur = none)
    ∧ validateLameDuckOptions (-100000000) 10000000 = none := by
  refine ⟨?_, ?_, by decide⟩
  · intro gp dur h
    refine ⟨ldmValidationMsg gp dur, by simp [validateLameDuckOptions, h],
      "lame duck grace period (" ++ toString gp ++ ") ",
      " than lame duck duration (" ++ toString dur ++ ")", ?_⟩
    simp [ldmValidationMsg, String.append_assoc]
  · intro gp dur h
    simp [validateLameDuckOptions, Int.not_le.2 h]

theorem ldm_grace_period_validation_witness :
    ∃ e, validateLameDuckOptions 10000000000 5000000000 = some e
      ∧ ∃ pre post, e = pre ++ "should be strictly lower" ++ post :=
  ldm_grace_period_validation.1 10000000000 5000000000 (by decide)

/-- C10: entering lame-duck mode on a server with zero connected clients
(and not already in lame-duck or shutdown) makes the server report
shutting-down immediately, and invoking lame-duck entry a second time
has no additional effect. -/
theorem ldm_no_clients_shutdown_and_idempotent :
    (∀ s : SrvState, s.ldm = false → s.clients = 0 →
        isShuttingDown (lameDuckMode s) = true)
    ∧ (∀ s : SrvState, lameDuckMode (lameDuckMode s) = lameDuckMode s) := by
  constructor
  · intro s hldm hc
    unfold lameDuckMode isShuttingDown
    by_cases hsd : s.shuttingDown = true
    · simp [hldm, hsd]
    · simp at hsd
      simp [hldm, hsd, hc]
  · intro s
    unfold lameDuckMode
    by_cases h1 : (s.ldm || s.shuttingDown) = true
    · simp [h1]
    · simp only [Bool.or_eq_true] at h1
      push_neg at h1
      simp only [Bool.not_eq_true] at h1
      by_cases hc : s.clients == 0
      · simp [h1.1, h1.2, hc]
      · simp [h1.1, h1.2, hc]

theorem ldm_no_clients_shutdown_and_idempotent_witness :
    isShuttingDown (lameDuckMode ⟨false, false, 0⟩) = true :=
  ldm_no_clients_shutdown_and_idempotent.1 ⟨false, false, 0⟩ rfl rfl

end NatsSpec
